import Mathlib

/-!
Verification of the reference-resolution subsystem of the openapiv3 crate
(src/reference.rs): the `ReferenceOr` container, the `SchemaReference`
path model, the shared name-extraction helper `parse_reference`, and the
four `Resolve` instantiations (schema, parameter, response, request body).

Strings are modelled as Lean `String`; the Rust splitting primitives
`str::split('/')` and `str::rsplit_once('/')` are embedded as recursive
functions on `List Char` with the same semantics.  Errors produced with
`anyhow!` are modelled by the inductive `Err`, one constructor per error
site, carrying the same textual payloads; `Err.message` renders the
format strings of the source.

The Rust schema resolver recurses without a bound on property
references; the Lean embedding `resolveSchema` takes a fuel argument
that is decremented exactly at the one recursive call site, and reports
`Err.outOfFuel` when the depth bound is exceeded.  All facts below are
stated fuel-robustly or at an explicit sufficient fuel.
-/

namespace Openapiv3

/-- One constructor per `anyhow!` error site of src/reference.rs, carrying
the interpolated payloads of the corresponding format string. -/
inductive Err : Type where
  | malformedSchemaRef (reference : String)
  | invalidGroupRef (group : String) (reference : String)
  | noComponents
  | notFound (reference : String)
  | chained (reference : String) (target : String)
  | notObject (reference : String) (schemaName : String)
  | lacksProperty (schemaName : String) (property : String)
  | outOfFuel
  deriving DecidableEq, Repr

/-- Rendering of each error as in the source format strings.  The
`chained` case renders the `.context(..)` message followed by the inner
message, as the two lines of the anyhow error chain. -/
def Err.message : Err → String
  | .malformedSchemaRef reference =>
      "malformed reference; " ++ reference ++ " cannot be parsed as SchemaReference"
  | .invalidGroupRef group reference =>
      "invalid " ++ group ++ " reference: " ++ reference
  | .noComponents => "no components in spec"
  | .notFound reference => reference ++ " not found in OpenAPI spec"
  | .chained reference target =>
      "references must refer directly to the definition; chains are not permitted: reference "
        ++ reference ++ " refers to " ++ target
  | .notObject reference schemaName =>
      "tried to resolve reference " ++ reference ++ ", but " ++ schemaName
        ++ " is not an object with properties"
  | .lacksProperty schemaName property =>
      "schema " ++ schemaName ++ " lacks property " ++ property
  | .outOfFuel => "recursion depth bound exceeded"

/-- Embedding of Rust `str::split('/')` on the character list: the list of
(possibly empty) segments between occurrences of '/'.  Like Rust,
`splitSlash [] = [[]]` (splitting the empty string yields one empty
segment). -/
def splitSlash : List Char → List (List Char)
  | [] => [[]]
  | c :: cs =>
    if c = '/' then [] :: splitSlash cs
    else
      match splitSlash cs with
      | [] => [[c]]
      | p :: ps => (c :: p) :: ps

/-- Embedding of Rust `str::rsplit_once('/')`: split at the LAST
occurrence of '/', returning the part before and the part after it, or
`none` when no '/' occurs. -/
def rsplitOnce : List Char → Option (List Char × List Char)
  | [] => none
  | c :: cs =>
    match rsplitOnce cs with
    | some (h, t) => some (c :: h, t)
    | none => if c = '/' then some ([], cs) else none

/-- A structured enum of an OpenAPI reference, as in the source:
`#/components/schemas/Account` or
`#/components/schemas/Account/properties/name`. -/
inductive SchemaReference : Type where
  | schema (schema : String)
  | property (schema : String) (property : String)
  deriving DecidableEq, Repr

/-- Embedding of `SchemaReference::from_str`: split the input on '/' and
match the two fixed shapes. -/
def SchemaReference.from_str (reference : String) : Except Err SchemaReference :=
  match (splitSlash reference.data).map String.mk with
  | ["#", "components", "schemas", s] => .ok (.schema s)
  | ["#", "components", "schemas", s, "properties", p] =>
      .ok (.property s p)
  | _ => .error (.malformedSchemaRef reference)

/-- Embedding of the `Display` impl for `SchemaReference`. -/
def SchemaReference.fmt : SchemaReference → String
  | .schema s => "#/components/schemas/" ++ s
  | .property s p =>
      "#/components/schemas/" ++ s ++ "/properties/" ++ p

/-- The two-variant reference container of the source. -/
inductive ReferenceOr (T : Type) : Type where
  | Reference (reference : String)
  | Item (item : T)
  deriving DecidableEq, Repr

/-- Embedding of `ReferenceOr::as_item`. -/
def ReferenceOr.as_item : ReferenceOr T → Option T
  | .Reference _ => none
  | .Item i => some i

/-- Embedding of `ReferenceOr::as_ref_str`. -/
def ReferenceOr.as_ref_str : ReferenceOr T → Option String
  | .Reference reference => some reference
  | .Item _ => none

/-- Modelled from the spec: the `Schema` type is defined outside
src/reference.rs; per the spec it exposes an is-this-schema-empty
predicate and, when applicable, a property dictionary mapping names to
`ReferenceOr<Schema>` values. -/
inductive Schema : Type where
  | mk (isEmptyFlag : Bool) (props : Option (List (String × ReferenceOr Schema)))

/-- Modelled from the spec: the schema reports itself empty. -/
def Schema.is_empty : Schema → Bool
  | .mk e _ => e

/-- Modelled from the spec: the property dictionary of the schema, when
it has one. -/
def Schema.properties : Schema → Option (List (String × ReferenceOr Schema))
  | .mk _ p => p

/-- Embedding of `ReferenceOr::<Schema>::is_empty`. -/
def ReferenceOr.is_empty (v : ReferenceOr Schema) : Bool :=
  (v.as_item.map Schema.is_empty).getD false

/-- Modelled from the spec: external entity type, opaque to this core. -/
structure Parameter : Type where
  name : String
  deriving DecidableEq, Repr

/-- Modelled from the spec: external entity type, opaque to this core. -/
structure Response : Type where
  name : String
  deriving DecidableEq, Repr

/-- Modelled from the spec: external entity type, opaque to this core. -/
structure RequestBody : Type where
  name : String
  deriving DecidableEq, Repr

/-- Modelled from the spec: the optional components section of the
document, exposing the four name-keyed dictionaries the resolvers
query. -/
structure Components : Type where
  schemas : List (String × ReferenceOr Schema)
  parameters : List (String × ReferenceOr Parameter)
  responses : List (String × ReferenceOr Response)
  request_bodies : List (String × ReferenceOr RequestBody)

/-- Modelled from the spec: the document, of which the resolvers touch
only the optional components section. -/
structure OpenAPI : Type where
  components : Option Components

/-- Modelled from the spec: the top-level schema accessor `spec.schemas()`
is defined outside src/reference.rs; per the spec it exposes the
components-level schema dictionary as a queryable name-to-entry map (empty
when the document has no components section). -/
def OpenAPI.schemas (spec : OpenAPI) : List (String × ReferenceOr Schema) :=
  match spec.components with
  | some c => c.schemas
  | none => []

/-- Embedding of the helper `parse_reference`: split at the last '/',
require the head to equal `#/components/` followed by the group (the
source phrases this as `head.strip_prefix("#/components/") ==
Some(group)`, which holds exactly for that equality), and return the
trailing name. -/
def parse_reference (reference : String) (group : String) : Except Err String :=
  match rsplitOnce reference.data with
  | some (head, name) =>
    if head = ("#/components/" ++ group).data then .ok (String.mk name)
    else .error (.invalidGroupRef group reference)
  | none => .error (.invalidGroupRef group reference)

/-- Embedding of `get_response_name`. -/
def get_response_name (reference : String) : Except Err String :=
  parse_reference reference "responses"

/-- Embedding of `get_request_body_name`. -/
def get_request_body_name (reference : String) : Except Err String :=
  parse_reference reference "requestBodies"

/-- Embedding of `get_parameter_name`. -/
def get_parameter_name (reference : String) : Except Err String :=
  parse_reference reference "parameters"

/-- Embedding of the closure `get_schema` of the schema resolver: look
the name up in `spec.schemas()`, fail with the not-found error (naming
the displayed parsed reference) when absent, and with the chained-
reference error (naming the displayed parsed reference and the target
pointer) when the entry is itself a reference. -/
def get_schema (spec : OpenAPI) (ref : SchemaReference) (schema : String) :
    Except Err Schema :=
  match List.lookup schema spec.schemas with
  | none => .error (.notFound ref.fmt)
  | some schemaRef =>
    match schemaRef with
    | .Item item => .ok item
    | .Reference r => .error (.chained ref.fmt r)

/-- Embedding of `<ReferenceOr<Schema> as Resolve>::resolve`.  The Rust
code recurses unboundedly at the property step; `fuel` bounds that
recursion depth, with `Err.outOfFuel` reporting exhaustion. -/
def resolveSchema (fuel : Nat) (c : ReferenceOr Schema) (spec : OpenAPI) :
    Except Err Schema :=
  match c with
  | .Item item => .ok item
  | .Reference reference =>
    match SchemaReference.from_str reference with
    | .error e => .error e
    | .ok ref =>
      match ref with
      | .schema s => get_schema spec ref s
      | .property s p =>
        match get_schema spec ref s with
        | .error e => .error e
        | .ok sch =>
          match sch.properties with
          | none => .error (.notObject ref.fmt s)
          | some props =>
            match List.lookup p props with
            | none => .error (.lacksProperty s p)
            | some pr =>
              match fuel with
              | 0 => .error .outOfFuel
              | f + 1 => resolveSchema f pr spec

/-- Embedding of `<ReferenceOr<Parameter> as Resolve>::resolve`. -/
def resolveParameter (c : ReferenceOr Parameter) (spec : OpenAPI) :
    Except Err Parameter :=
  match c with
  | .Item item => .ok item
  | .Reference reference =>
    match get_parameter_name reference with
    | .error e => .error e
    | .ok name =>
      match spec.components with
      | none => .error .noComponents
      | some components =>
        match List.lookup name components.parameters with
        | none => .error (.notFound reference)
        | some paramRef =>
          match paramRef with
          | .Item item => .ok item
          | .Reference r => .error (.chained reference r)

/-- Embedding of `<ReferenceOr<Response> as Resolve>::resolve`. -/
def resolveResponse (c : ReferenceOr Response) (spec : OpenAPI) :
    Except Err Response :=
  match c with
  | .Item item => .ok item
  | .Reference reference =>
    match get_response_name reference with
    | .error e => .error e
    | .ok name =>
      match spec.components with
      | none => .error .noComponents
      | some components =>
        match List.lookup name components.responses with
        | none => .error (.notFound reference)
        | some responseRef =>
          match responseRef with
          | .Item item => .ok item
          | .Reference r => .error (.chained reference r)

/-- Embedding of `<ReferenceOr<RequestBody> as Resolve>::resolve`. -/
def resolveRequestBody (c : ReferenceOr RequestBody) (spec : OpenAPI) :
    Except Err RequestBody :=
  match c with
  | .Item item => .ok item
  | .Reference reference =>
    match get_request_body_name reference with
    | .error e => .error e
    | .ok name =>
      match spec.components with
      | none => .error .noComponents
      | some components =>
        match List.lookup name components.request_bodies with
        | none => .error (.notFound reference)
        | some bodyRef =>
          match bodyRef with
          | .Item item => .ok item
          | .Reference r => .error (.chained reference r)

/-! ### Concrete example documents used in witnesses and counterexamples -/

/-- A plain schema with no property dictionary, standing for a string schema. -/
def stringSchema : Schema := .mk false none

/-- Schema whose property p is itself a property-shaped reference into B. -/
def schemaA : Schema :=
  .mk false (some [("p", .Reference "#/components/schemas/B/properties/q")])

/-- Schema whose property q is an inline item. -/
def schemaB : Schema := .mk false (some [("q", .Item stringSchema)])

/-- Document with a two-link chain of property references: A.p points at
B.q, which is inline. -/
def specAB : OpenAPI :=
  ⟨some ⟨[("A", .Item schemaA), ("B", .Item schemaB)], [], [], []⟩⟩

/-- Schema whose property p refers back to itself. -/
def schemaCyc : Schema :=
  .mk false (some [("p", .Reference "#/components/schemas/Cyc/properties/p")])

/-- Document on which the Rust resolver recurses forever. -/
def specCyc : OpenAPI := ⟨some ⟨[("Cyc", .Item schemaCyc)], [], [], []⟩⟩

/-- The Account document of the property-traversal example in the spec. -/
def accountSchema : Schema := .mk false (some [("name", .Item stringSchema)])

/-- Document containing the Account schema and the property-less Str
schema. -/
def specAccount : OpenAPI :=
  ⟨some ⟨[("Account", .Item accountSchema), ("Str", .Item stringSchema)], [], [], []⟩⟩

/-- Document with no components section at all. -/
def emptySpec : OpenAPI := ⟨none⟩

/-- Document whose dictionaries all hold chained entries, plus one
parameter entry under the empty-string name. -/
def chainSpec : OpenAPI :=
  ⟨some ⟨[("A", .Reference "#/components/schemas/B")],
         [("P", .Reference "#/components/parameters/Q"), ("", .Item ⟨"anon"⟩)],
         [("R", .Reference "#/components/responses/S")],
         [("B", .Reference "#/components/requestBodies/C")]⟩⟩

/-! ### Lemmas about the splitting primitives -/

/-- Joining the segments back with '/' separators; inverse of `splitSlash`. -/
def joinSlash : List (List Char) → List Char
  | [] => []
  | [p] => p
  | p :: ps => p ++ '/' :: joinSlash ps

theorem splitSlash_ne_nil (l : List Char) : splitSlash l ≠ [] := by
  induction l with
  | nil => simp [splitSlash]
  | cons c cs ih =>
    by_cases h : c = '/'
    · simp [splitSlash, h]
    · simp only [splitSlash, if_neg h]
      cases hs : splitSlash cs with
      | nil => simp
      | cons p ps => simp

theorem splitSlash_noSlash (l : List Char) (h : '/' ∉ l) : splitSlash l = [l] := by
  induction l with
  | nil => rfl
  | cons c cs ih =>
    have hc : ¬ c = '/' := fun e => h (by simp [e])
    have ih2 := ih (fun m => h (List.mem_cons_of_mem _ m))
    simp [splitSlash, hc, ih2]

theorem splitSlash_append (l r : List Char) (h : '/' ∉ l) :
    splitSlash (l ++ '/' :: r) = l :: splitSlash r := by
  induction l with
  | nil => simp [splitSlash]
  | cons c cs ih =>
    have hc : ¬ c = '/' := fun e => h (by simp [e])
    have ih2 := ih (fun m => h (List.mem_cons_of_mem _ m))
    simp only [List.cons_append, splitSlash, if_neg hc, List.append_eq, ih2]

theorem joinSlash_splitSlash (l : List Char) : joinSlash (splitSlash l) = l := by
  induction l with
  | nil => rfl
  | cons c cs ih =>
    obtain ⟨p, ps, hps⟩ : ∃ p ps, splitSlash cs = p :: ps := by
      cases hq : splitSlash cs with
      | nil => exact absurd hq (splitSlash_ne_nil cs)
      | cons p ps => exact ⟨p, ps, rfl⟩
    rw [hps] at ih
    by_cases hc : c = '/'
    · subst hc
      have h1 : splitSlash ('/' :: cs) = [] :: splitSlash cs := by simp [splitSlash]
      rw [h1, hps]
      show ([] : List Char) ++ '/' :: joinSlash (p :: ps) = '/' :: cs
      rw [List.nil_append, ih]
    · have h1 : splitSlash (c :: cs) = (c :: p) :: ps := by
        simp only [splitSlash, if_neg hc, hps]
      rw [h1]
      cases ps with
      | nil =>
        show c :: p = c :: cs
        simp only [joinSlash] at ih
        rw [ih]
      | cons q qs =>
        show (c :: p) ++ '/' :: joinSlash (q :: qs) = c :: cs
        simp only [joinSlash] at ih ⊢
        rw [List.cons_append, ih]

theorem noSlash_of_mem_splitSlash (l : List Char) :
    ∀ p ∈ splitSlash l, '/' ∉ p := by
  induction l with
  | nil =>
    intro p hp
    simp [splitSlash] at hp
    simp [hp]
  | cons c cs ih =>
    by_cases hc : c = '/'
    · subst hc
      intro p hp
      rw [show splitSlash ('/' :: cs) = [] :: splitSlash cs by simp [splitSlash]] at hp
      rcases List.mem_cons.mp hp with h | h
      · simp [h]
      · exact ih p h
    · obtain ⟨q, qs, hqs⟩ : ∃ q qs, splitSlash cs = q :: qs := by
        cases hq : splitSlash cs with
        | nil => exact absurd hq (splitSlash_ne_nil cs)
        | cons q qs => exact ⟨q, qs, rfl⟩
      intro p hp
      rw [show splitSlash (c :: cs) = (c :: q) :: qs by
            simp only [splitSlash, if_neg hc, hqs]] at hp
      rcases List.mem_cons.mp hp with h | h
      · subst h
        intro hm
        rcases List.mem_cons.mp hm with h | h
        · exact hc h.symm
        · exact ih q (hqs ▸ List.mem_cons_self q qs) h
      · exact ih p (hqs ▸ List.mem_cons_of_mem q h)

theorem rsplitOnce_eq_none (l : List Char) (h : '/' ∉ l) : rsplitOnce l = none := by
  induction l with
  | nil => rfl
  | cons c cs ih =>
    have hc : ¬ c = '/' := fun e => h (by simp [e])
    have ih2 := ih (fun m => h (List.mem_cons_of_mem _ m))
    simp [rsplitOnce, ih2, hc]

theorem noSlash_of_rsplitOnce_eq_none (l : List Char) (e : rsplitOnce l = none) :
    '/' ∉ l := by
  induction l with
  | nil => simp
  | cons c cs ih =>
    simp only [rsplitOnce] at e
    cases hr : rsplitOnce cs with
    | some p => rw [hr] at e; exact Option.noConfusion e
    | none =>
      rw [hr] at e
      by_cases hc : c = '/'
      · rw [if_pos hc] at e; exact Option.noConfusion e
      · rw [if_neg hc] at e
        intro hm
        rcases List.mem_cons.mp hm with h | h
        · exact hc h.symm
        · exact ih hr h

theorem rsplitOnce_append (l t : List Char) (h : '/' ∉ t) :
    rsplitOnce (l ++ '/' :: t) = some (l, t) := by
  induction l with
  | nil => simp [rsplitOnce, rsplitOnce_eq_none t h]
  | cons c cs ih => simp [rsplitOnce, ih]

theorem rsplitOnce_some (l h t : List Char) (e : rsplitOnce l = some (h, t)) :
    l = h ++ '/' :: t ∧ '/' ∉ t := by
  induction l generalizing h t with
  | nil => simp [rsplitOnce] at e
  | cons c cs ih =>
    simp only [rsplitOnce] at e
    cases hr : rsplitOnce cs with
    | some p =>
      obtain ⟨h0, t0⟩ := p
      rw [hr] at e
      simp only [Option.some.injEq, Prod.mk.injEq] at e
      obtain ⟨he1, he2⟩ := e
      obtain ⟨hl, hf⟩ := ih h0 t0 hr
      subst he2
      rw [← he1, hl]
      exact ⟨rfl, hf⟩
    | none =>
      rw [hr] at e
      by_cases hc : c = '/'
      · rw [if_pos hc] at e
        simp only [Option.some.injEq, Prod.mk.injEq] at e
        obtain ⟨he1, he2⟩ := e
        subst hc; subst he2
        rw [← he1]
        exact ⟨rfl, noSlash_of_rsplitOnce_eq_none cs hr⟩
      · rw [if_neg hc] at e
        exact Option.noConfusion e

/-! ### Characterization of SchemaReference parsing -/

theorem data_mk (l : List Char) : (String.mk l).data = l := rfl

theorem map_data_map_mk (l : List (List Char)) :
    (l.map String.mk).map String.data = l := by
  induction l with
  | nil => rfl
  | cons p ps ih => simp [data_mk, ih]

theorem from_str_fmt_schema (s : String) (h : '/' ∉ s.data) :
    SchemaReference.from_str (SchemaReference.schema s).fmt = .ok (.schema s) := by
  have hd : ((SchemaReference.schema s).fmt).data
      = ['#'] ++ '/' :: ("components".data ++ '/' :: ("schemas".data ++ '/' :: s.data)) := by
    show ("#/components/schemas/" ++ s).data = _
    rw [String.data_append]
    rfl
  have key : (splitSlash ((SchemaReference.schema s).fmt).data).map String.mk
      = ["#", "components", "schemas", s] := by
    rw [hd, splitSlash_append _ _ (by decide), splitSlash_append _ _ (by decide),
        splitSlash_append _ _ (by decide), splitSlash_noSlash _ h]
    rfl
  unfold SchemaReference.from_str
  rw [key]
  rfl

theorem from_str_fmt_property (s p : String) (hs : '/' ∉ s.data) (hp : '/' ∉ p.data) :
    SchemaReference.from_str (SchemaReference.property s p).fmt = .ok (.property s p) := by
  have hd : ((SchemaReference.property s p).fmt).data
      = ['#'] ++ '/' :: ("components".data ++ '/' :: ("schemas".data ++ '/'
          :: (s.data ++ '/' :: ("properties".data ++ '/' :: p.data)))) := by
    show ("#/components/schemas/" ++ s ++ "/properties/" ++ p).data = _
    simp only [String.data_append, List.append_assoc]
    rfl
  have key : (splitSlash ((SchemaReference.property s p).fmt).data).map String.mk
      = ["#", "components", "schemas", s, "properties", p] := by
    rw [hd, splitSlash_append _ _ (by decide), splitSlash_append _ _ (by decide),
        splitSlash_append _ _ (by decide), splitSlash_append _ _ hs,
        splitSlash_append _ _ (by decide), splitSlash_noSlash _ hp]
    rfl
  unfold SchemaReference.from_str
  rw [key]
  rfl

theorem from_str_eq_ok_iff (r : String) (v : SchemaReference) :
    SchemaReference.from_str r = .ok v ↔
      ((∃ s, '/' ∉ s.data ∧ v = .schema s ∧ r = "#/components/schemas/" ++ s) ∨
       (∃ s p, '/' ∉ s.data ∧ '/' ∉ p.data ∧ v = .property s p ∧
         r = "#/components/schemas/" ++ s ++ "/properties/" ++ p)) := by
  constructor
  · intro h
    unfold SchemaReference.from_str at h
    split at h
    case _ s heq =>
      have hsplit := (map_data_map_mk (splitSlash r.data)).symm.trans
        (congrArg (List.map String.data) heq)
      have hfree := noSlash_of_mem_splitSlash r.data s.data (by rw [hsplit]; simp)
      have hjoin := joinSlash_splitSlash r.data
      rw [hsplit] at hjoin
      have hr : r = "#/components/schemas/" ++ s := by
        apply String.ext
        rw [← hjoin, String.data_append]
        rfl
      injection h with h2
      exact Or.inl ⟨s, hfree, h2.symm, hr⟩
    case _ s p heq =>
      have hsplit := (map_data_map_mk (splitSlash r.data)).symm.trans
        (congrArg (List.map String.data) heq)
      have hfs := noSlash_of_mem_splitSlash r.data s.data (by rw [hsplit]; simp)
      have hfp := noSlash_of_mem_splitSlash r.data p.data (by rw [hsplit]; simp)
      have hjoin := joinSlash_splitSlash r.data
      rw [hsplit] at hjoin
      have hr : r = "#/components/schemas/" ++ s ++ "/properties/" ++ p := by
        apply String.ext
        rw [← hjoin]
        simp only [String.data_append, List.append_assoc]
        rfl
      injection h with h2
      exact Or.inr ⟨s, p, hfs, hfp, h2.symm, hr⟩
    case _ =>
      exact Except.noConfusion h
  · intro h
    rcases h with ⟨s, hf, hv, hr⟩ | ⟨s, p, hfs, hfp, hv, hr⟩
    · subst hv; subst hr
      exact from_str_fmt_schema s hf
    · subst hv; subst hr
      exact from_str_fmt_property s p hfs hfp

theorem from_str_total (r : String) :
    SchemaReference.from_str r = .error (.malformedSchemaRef r) ∨
      ∃ v, SchemaReference.from_str r = .ok v := by
  unfold SchemaReference.from_str
  split
  · right; exact ⟨_, rfl⟩
  · right; exact ⟨_, rfl⟩
  · left; rfl

/-! ### Characterization of the name-extraction helper -/

theorem parse_reference_eq_ok_iff (r g n : String) :
    parse_reference r g = .ok n ↔
      ('/' ∉ n.data ∧ r = "#/components/" ++ g ++ "/" ++ n) := by
  constructor
  · intro h
    unfold parse_reference at h
    split at h
    case _ head name heq =>
      split at h
      case isTrue hc =>
        injection h with h2
        obtain ⟨hl, hfree⟩ := rsplitOnce_some r.data head name heq
        subst h2
        refine ⟨hfree, ?_⟩
        apply String.ext
        rw [hl, hc]
        simp only [String.data_append, List.append_assoc]
        rfl
      case isFalse hc => exact Except.noConfusion h
    case _ heq => exact Except.noConfusion h
  · rintro ⟨hfree, hr⟩
    subst hr
    unfold parse_reference
    have hd : ("#/components/" ++ g ++ "/" ++ n).data
        = ("#/components/" ++ g).data ++ '/' :: n.data := by
      simp only [String.data_append, List.append_assoc]
      rfl
    rw [hd, rsplitOnce_append _ _ hfree]
    simp

theorem parse_reference_total (r g : String) :
    (∃ n, parse_reference r g = .ok n) ∨
      parse_reference r g = .error (.invalidGroupRef g r) := by
  unfold parse_reference
  split
  · split
    · left; exact ⟨_, rfl⟩
    · right; rfl
  · right; rfl

/-! ### Claim theorems -/

/-- C6: resolving a `ReferenceOr.Item v` container against any document,
including one with no components section, returns v unchanged and cannot
fail, for all four resolver instantiations (the schema one at every
recursion-depth bound). -/
theorem C6_item_short_circuit :
    (∀ (f : Nat) (d : OpenAPI) (s : Schema), resolveSchema f (.Item s) d = .ok s) ∧
    (∀ (d : OpenAPI) (p : Parameter), resolveParameter (.Item p) d = .ok p) ∧
    (∀ (d : OpenAPI) (r : Response), resolveResponse (.Item r) d = .ok r) ∧
    (∀ (d : OpenAPI) (b : RequestBody), resolveRequestBody (.Item b) d = .ok b) :=
  ⟨fun _ _ _ => by simp only [resolveSchema], fun _ _ => rfl, fun _ _ => rfl,
   fun _ _ => rfl⟩

/-- C9: for every `ReferenceOr Schema` value, `is_empty` is true exactly
when the variant is Item and the contained schema reports itself empty;
a Reference variant is never empty, whatever its reference string. -/
theorem C9_is_empty_characterization :
    (∀ v : ReferenceOr Schema,
        v.is_empty = true ↔ ∃ s, v = .Item s ∧ s.is_empty = true) ∧
    (∀ r : String, (ReferenceOr.Reference r : ReferenceOr Schema).is_empty = false) := by
  constructor
  · intro v
    cases v with
    | Reference r => simp [ReferenceOr.is_empty, ReferenceOr.as_item]
    | Item s => simp [ReferenceOr.is_empty, ReferenceOr.as_item]
  · intro r
    rfl

/-- C3: when the dictionary entry named by a reference is itself a
Reference, resolution fails with the chained-reference diagnosis carrying
both the original pointer and the pointer it resolves to, for every
target string r2 (whether or not r2 would itself resolve), in all four
instantiations; the rendered diagnosis says chains are not permitted. -/
theorem C3_chain_rejection :
    (∀ (d : OpenAPI) (r s r2 : String) (f : Nat),
        SchemaReference.from_str r = .ok (.schema s) →
        List.lookup s d.schemas = some (.Reference r2) →
        resolveSchema f (.Reference r) d
          = .error (.chained (SchemaReference.schema s).fmt r2)) ∧
    (∀ (d : OpenAPI) (c : Components) (r n r2 : String),
        d.components = some c → get_parameter_name r = .ok n →
        List.lookup n c.parameters = some (.Reference r2) →
        resolveParameter (.Reference r) d = .error (.chained r r2)) ∧
    (∀ (d : OpenAPI) (c : Components) (r n r2 : String),
        d.components = some c → get_response_name r = .ok n →
        List.lookup n c.responses = some (.Reference r2) →
        resolveResponse (.Reference r) d = .error (.chained r r2)) ∧
    (∀ (d : OpenAPI) (c : Components) (r n r2 : String),
        d.components = some c → get_request_body_name r = .ok n →
        List.lookup n c.request_bodies = some (.Reference r2) →
        resolveRequestBody (.Reference r) d = .error (.chained r r2)) ∧
    (∀ o t : String, (Err.chained o t).message
        = "references must refer directly to the definition; chains are not permitted: reference "
            ++ o ++ " refers to " ++ t) := by
  refine ⟨?_, ?_, ?_, ?_, ?_⟩
  · intro d r s r2 f h1 h2
    simp only [resolveSchema, h1, get_schema, h2]
  · intro d c r n r2 hc hn hl
    simp only [resolveParameter, hn, hc, hl]
  · intro d c r n r2 hc hn hl
    simp only [resolveResponse, hn, hc, hl]
  · intro d c r n r2 hc hn hl
    simp only [resolveRequestBody, hn, hc, hl]
  · intro o t
    rfl

/-- C3 witness: concrete chained entries in each of the four
dictionaries of chainSpec are rejected with the chained diagnosis. -/
theorem C3_witness :
    resolveSchema 0 (.Reference "#/components/schemas/A") chainSpec
        = .error (.chained "#/components/schemas/A" "#/components/schemas/B")
    ∧ resolveParameter (.Reference "#/components/parameters/P") chainSpec
        = .error (.chained "#/components/parameters/P" "#/components/parameters/Q")
    ∧ resolveResponse (.Reference "#/components/responses/R") chainSpec
        = .error (.chained "#/components/responses/R" "#/components/responses/S")
    ∧ resolveRequestBody (.Reference "#/components/requestBodies/B") chainSpec
        = .error (.chained "#/components/requestBodies/B" "#/components/requestBodies/C") :=
  ⟨C3_chain_rejection.1 chainSpec "#/components/schemas/A" "A" "#/components/schemas/B" 0 rfl rfl,
   C3_chain_rejection.2.1 chainSpec _ "#/components/parameters/P" "P"
     "#/components/parameters/Q" rfl rfl rfl,
   C3_chain_rejection.2.2.1 chainSpec _ "#/components/responses/R" "R"
     "#/components/responses/S" rfl rfl rfl,
   C3_chain_rejection.2.2.2.1 chainSpec _ "#/components/requestBodies/B" "B"
     "#/components/requestBodies/C" rfl rfl rfl⟩

/-- C7: resolving a Property-shaped schema reference, once the named
schema resolves to an inline item: no property dictionary gives the
not-an-object diagnosis naming the schema; a missing entry gives the
lacks-property diagnosis; a present entry is resolved as its own
`ReferenceOr Schema` container, so an inline property value is returned
directly. -/
theorem C7_property_traversal
    (d : OpenAPI) (r s p : String) (sch : Schema) (f : Nat)
    (hr : SchemaReference.from_str r = .ok (.property s p))
    (hs : List.lookup s d.schemas = some (.Item sch)) :
    (sch.properties = none →
        resolveSchema f (.Reference r) d
          = .error (.notObject (SchemaReference.property s p).fmt s)) ∧
    (∀ props, sch.properties = some props → List.lookup p props = none →
        resolveSchema f (.Reference r) d = .error (.lacksProperty s p)) ∧
    (∀ props pr, sch.properties = some props → List.lookup p props = some pr →
        resolveSchema (f + 1) (.Reference r) d = resolveSchema f pr d) ∧
    (∀ props sch2, sch.properties = some props →
        List.lookup p props = some (.Item sch2) →
        resolveSchema (f + 1) (.Reference r) d = .ok sch2) := by
  refine ⟨?_, ?_, ?_, ?_⟩
  · intro hnone
    simp only [resolveSchema, hr, get_schema, hs, hnone]
  · intro props hsome hnone
    simp only [resolveSchema, hr, get_schema, hs, hsome, hnone]
  · intro props pr hsome hl
    simp only [resolveSchema, hr, get_schema, hs, hsome, hl]
  · intro props sch2 hsome hl
    simp only [resolveSchema, hr, get_schema, hs, hsome, hl]

/-- C7 witness: in specAccount, Account.name resolves to the string
schema, a missing property is diagnosed, and a property path into the
property-less schema Str is diagnosed as not an object. -/
theorem C7_witness :
    resolveSchema 1 (.Reference "#/components/schemas/Account/properties/name") specAccount
        = .ok stringSchema
    ∧ resolveSchema 0 (.Reference "#/components/schemas/Account/properties/missing") specAccount
        = .error (.lacksProperty "Account" "missing")
    ∧ resolveSchema 0 (.Reference "#/components/schemas/Str/properties/x") specAccount
        = .error (.notObject "#/components/schemas/Str/properties/x" "Str") :=
  ⟨(C7_property_traversal specAccount "#/components/schemas/Account/properties/name"
      "Account" "name" accountSchema 0 rfl rfl).2.2.2
        [("name", .Item stringSchema)] stringSchema rfl rfl,
   (C7_property_traversal specAccount "#/components/schemas/Account/properties/missing"
      "Account" "missing" accountSchema 0 rfl rfl).2.1
        [("name", .Item stringSchema)] rfl rfl,
   (C7_property_traversal specAccount "#/components/schemas/Str/properties/x"
      "Str" "x" stringSchema 0 rfl rfl).1 rfl⟩

/-- C10: the name-extraction helper accepts a pointer with an empty
trailing name, returning the empty string for every group, and the
parameter resolver then looks the empty string up like any other name:
it fails as unknown-name exactly when no empty-string entry exists, and
returns the entry when one does. -/
theorem C10_empty_trailing_name :
    (∀ g : String, parse_reference ("#/components/" ++ g ++ "/") g = .ok "") ∧
    (∀ (d : OpenAPI) (c : Components), d.components = some c →
        List.lookup "" c.parameters = none →
        resolveParameter (.Reference "#/components/parameters/") d
          = .error (.notFound "#/components/parameters/")) ∧
    (∀ (d : OpenAPI) (c : Components) (pv : Parameter), d.components = some c →
        List.lookup "" c.parameters = some (.Item pv) →
        resolveParameter (.Reference "#/components/parameters/") d = .ok pv) := by
  refine ⟨?_, ?_, ?_⟩
  · intro g
    exact (parse_reference_eq_ok_iff ("#/components/" ++ g ++ "/") g "").mpr
      ⟨by decide, (String.append_empty _).symm⟩
  · intro d c hc hl
    have hg : get_parameter_name "#/components/parameters/" = .ok "" := rfl
    simp only [resolveParameter, get_parameter_name] at hg ⊢
    simp only [hg, hc, hl]
  · intro d c pv hc hl
    have hg : get_parameter_name "#/components/parameters/" = .ok "" := rfl
    simp only [resolveParameter, get_parameter_name] at hg ⊢
    simp only [hg, hc, hl]

/-- C10 witness: the empty-name parameter pointer parses, misses in a
document with no empty-string entry, and hits the anon entry of
chainSpec. -/
theorem C10_witness :
    parse_reference "#/components/parameters/" "parameters" = .ok ""
    ∧ resolveParameter (.Reference "#/components/parameters/") specAccount
        = .error (.notFound "#/components/parameters/")
    ∧ resolveParameter (.Reference "#/components/parameters/") chainSpec
        = .ok ⟨"anon"⟩ :=
  ⟨C10_empty_trailing_name.1 "parameters",
   C10_empty_trailing_name.2.1 specAccount _ rfl rfl,
   C10_empty_trailing_name.2.2 chainSpec _ ⟨"anon"⟩ rfl rfl⟩

/-- C8: the shared name-extraction helper succeeds with the trailing
segment exactly when the input is the head #/components/group followed
by a final slash and a slash-free name, fails otherwise with an error
naming the group and the original string, and the two example behaviours
of the requestBodies pointer hold. -/
theorem C8_name_extraction :
    (∀ r g n : String, parse_reference r g = .ok n ↔
        ('/' ∉ n.data ∧ r = "#/components/" ++ g ++ "/" ++ n)) ∧
    (∀ r g : String,
        (¬ ∃ n, '/' ∉ n.data ∧ r = "#/components/" ++ g ++ "/" ++ n) →
        parse_reference r g = .error (.invalidGroupRef g r)) ∧
    (∀ r g : String, (Err.invalidGroupRef g r).message
        = "invalid " ++ g ++ " reference: " ++ r) ∧
    get_request_body_name "#/components/requestBodies/Foo" = .ok "Foo" ∧
    SchemaReference.from_str "#/components/requestBodies/Foo"
      = .error (.malformedSchemaRef "#/components/requestBodies/Foo") := by
  refine ⟨parse_reference_eq_ok_iff, ?_, fun r g => rfl, rfl, rfl⟩
  intro r g h
  rcases parse_reference_total r g with ⟨n, hn⟩ | he
  · exact absurd ⟨n, (parse_reference_eq_ok_iff r g n).mp hn⟩ h
  · exact he

/-- C8 witness: a parameter pointer extracts its trailing name, and a
string with no recognizable head fails with the group-naming error. -/
theorem C8_witness :
    parse_reference "#/components/parameters/Foo" "parameters" = .ok "Foo"
    ∧ parse_reference "nope" "parameters"
        = .error (.invalidGroupRef "parameters" "nope") :=
  ⟨(C8_name_extraction.1 "#/components/parameters/Foo" "parameters" "Foo").mpr
      ⟨by decide, rfl⟩,
   C8_name_extraction.2.1 "nope" "parameters" (fun hex => by
     obtain ⟨n, hf, hr⟩ := hex
     have hok := (C8_name_extraction.1 "nope" "parameters" n).mpr ⟨hf, hr⟩
     rw [show parse_reference "nope" "parameters"
           = Except.error (.invalidGroupRef "parameters" "nope") from rfl] at hok
     exact Except.noConfusion hok)⟩

/-- C4 counterexample: for the value Schema with name a/b, formatting
and re-parsing does not succeed, so the round-trip equation with the
inner parse succeeding fails for arbitrary name strings. -/
theorem C4_counterexample :
    SchemaReference.from_str (SchemaReference.schema "a/b").fmt
      = .error (.malformedSchemaRef "#/components/schemas/a/b") := rfl

/-- C4 (amended): for every SchemaReference value whose name strings
contain no slash, parsing the formatted string succeeds and formatting
again yields the same string. -/
theorem C4_roundtrip_amended :
    (∀ s : String, '/' ∉ s.data →
        (SchemaReference.from_str (SchemaReference.schema s).fmt).map SchemaReference.fmt
          = .ok (SchemaReference.schema s).fmt) ∧
    (∀ s p : String, '/' ∉ s.data → '/' ∉ p.data →
        (SchemaReference.from_str
            (SchemaReference.property s p).fmt).map SchemaReference.fmt
          = .ok (SchemaReference.property s p).fmt) := by
  constructor
  · intro s h
    rw [from_str_fmt_schema s h]
    rfl
  · intro s p hs hp
    rw [from_str_fmt_property s p hs hp]
    rfl

/-- C4 witness: the round trip at the Account and Account.name
references. -/
theorem C4_witness :
    (SchemaReference.from_str (SchemaReference.schema "Account").fmt).map SchemaReference.fmt
      = .ok (SchemaReference.schema "Account").fmt
    ∧ (SchemaReference.from_str
          (SchemaReference.property "Account" "name").fmt).map SchemaReference.fmt
      = .ok (SchemaReference.property "Account" "name").fmt :=
  ⟨C4_roundtrip_amended.1 "Account" (by decide),
   C4_roundtrip_amended.2 "Account" "name" (by decide) (by decide)⟩

/-- C5 counterexample: two inputs with a trailing slash producing an
empty segment parse successfully (with an empty name), contradicting the
claim that all such inputs fail. -/
theorem C5_counterexample :
    SchemaReference.from_str "#/components/schemas/" = .ok (.schema "")
    ∧ SchemaReference.from_str "#/components/schemas/x/properties/"
        = .ok (.property "x" "") :=
  ⟨rfl, rfl⟩

/-- C5 (amended): parsing fails, with the descriptive error carrying the
original string, exactly for inputs not of the two fixed shapes, where
the name positions admit any slash-free string including the empty one;
wrong segment counts, wrong literal segments, and leading slashes all
fail, but a slash directly ending the input yields an empty name and
succeeds. -/
theorem C5_parse_reject_amended (r : String) :
    (SchemaReference.from_str r = .error (.malformedSchemaRef r) ↔
      ((¬ ∃ s, '/' ∉ s.data ∧ r = "#/components/schemas/" ++ s) ∧
       (¬ ∃ s p, '/' ∉ s.data ∧ '/' ∉ p.data ∧
          r = "#/components/schemas/" ++ s ++ "/properties/" ++ p)))
    ∧ (Err.malformedSchemaRef r).message
        = "malformed reference; " ++ r ++ " cannot be parsed as SchemaReference" := by
  refine ⟨⟨?_, ?_⟩, rfl⟩
  · intro h
    constructor
    · rintro ⟨s, hf, hr⟩
      have hok := from_str_fmt_schema s hf
      simp only [SchemaReference.fmt] at hok
      rw [← hr] at hok
      rw [h] at hok
      exact Except.noConfusion hok
    · rintro ⟨s, p, hfs, hfp, hr⟩
      have hok := from_str_fmt_property s p hfs hfp
      simp only [SchemaReference.fmt] at hok
      rw [← hr] at hok
      rw [h] at hok
      exact Except.noConfusion hok
  · rintro ⟨h1, h2⟩
    rcases from_str_total r with he | ⟨v, hv⟩
    · exact he
    · exfalso
      rcases (from_str_eq_ok_iff r v).mp hv with ⟨s, hf, _, hr⟩ | ⟨s, p, hfs, hfp, _, hr⟩
      · exact h1 ⟨s, hf, hr⟩
      · exact h2 ⟨s, p, hfs, hfp, hr⟩

/-- C2 counterexample: with no components section, the schema resolver
does not produce the no-components failure; it reports the unknown-name
(not found) failure instead, because it queries the top-level schemas
accessor rather than the components section. -/
theorem C2_counterexample :
    resolveSchema 0 (.Reference "#/components/schemas/DoesNotExist") emptySpec
        = .error (.notFound "#/components/schemas/DoesNotExist")
    ∧ Err.notFound "#/components/schemas/DoesNotExist" ≠ Err.noComponents :=
  ⟨rfl, by decide⟩

/-- C2 (amended): when the container holds a Reference whose string the
kind-appropriate parser accepts and the document has no components
section, the parameter, response, and request-body resolvers fail with
the no-components diagnosis, whose message is "no components in spec";
the schema resolver instead fails with the unknown-name (not found)
diagnosis naming the displayed reference, since the top-level schemas
accessor is empty without components. -/
theorem C2_no_components :
    (∀ (d : OpenAPI) (r n : String), d.components = none →
        get_parameter_name r = .ok n →
        resolveParameter (.Reference r) d = .error .noComponents) ∧
    (∀ (d : OpenAPI) (r n : String), d.components = none →
        get_response_name r = .ok n →
        resolveResponse (.Reference r) d = .error .noComponents) ∧
    (∀ (d : OpenAPI) (r n : String), d.components = none →
        get_request_body_name r = .ok n →
        resolveRequestBody (.Reference r) d = .error .noComponents) ∧
    (∀ (d : OpenAPI) (r : String) (v : SchemaReference) (f : Nat),
        d.components = none → SchemaReference.from_str r = .ok v →
        resolveSchema f (.Reference r) d = .error (.notFound v.fmt)) ∧
    Err.noComponents.message = "no components in spec" := by
  refine ⟨?_, ?_, ?_, ?_, rfl⟩
  · intro d r n hc hn
    simp only [resolveParameter, hn, hc]
  · intro d r n hc hn
    simp only [resolveResponse, hn, hc]
  · intro d r n hc hn
    simp only [resolveRequestBody, hn, hc]
  · intro d r v f hc hv
    cases v with
    | schema s =>
      simp only [resolveSchema, hv, get_schema, OpenAPI.schemas, hc, List.lookup_nil]
    | property s p =>
      simp only [resolveSchema, hv, get_schema, OpenAPI.schemas, hc, List.lookup_nil]

/-- C2 witness: all four resolvers applied to well-formed pointers
against the componentless document. -/
theorem C2_witness :
    resolveParameter (.Reference "#/components/parameters/P") emptySpec
        = .error .noComponents
    ∧ resolveResponse (.Reference "#/components/responses/R") emptySpec
        = .error .noComponents
    ∧ resolveRequestBody (.Reference "#/components/requestBodies/B") emptySpec
        = .error .noComponents
    ∧ resolveSchema 9 (.Reference "#/components/schemas/S") emptySpec
        = .error (.notFound "#/components/schemas/S") :=
  ⟨C2_no_components.1 emptySpec "#/components/parameters/P" "P" rfl rfl,
   C2_no_components.2.1 emptySpec "#/components/responses/R" "R" rfl rfl,
   C2_no_components.2.2.1 emptySpec "#/components/requestBodies/B" "B" rfl rfl,
   C2_no_components.2.2.2.1 emptySpec "#/components/schemas/S" (.schema "S") 9 rfl rfl⟩

/-- C1 counterexample: in specAB, property p of A is itself a
property-shaped reference into B; with a depth budget of one recursive
property step resolution runs out, while two steps succeed, so the code
follows a further chain of property references and one recursive
property step does not bound resolution. -/
theorem C1_counterexample :
    resolveSchema 1 (.Reference "#/components/schemas/A/properties/p") specAB
        = .error .outOfFuel
    ∧ resolveSchema 2 (.Reference "#/components/schemas/A/properties/p") specAB
        = .ok stringSchema
    ∧ resolveSchema 1 (.Reference "#/components/schemas/A/properties/p") specAB
        ≠ resolveSchema 2 (.Reference "#/components/schemas/A/properties/p") specAB :=
  ⟨rfl, rfl, fun h => Except.noConfusion h⟩

/-- C1 (amended): resolving an Item needs no recursion at all, resolving
a Schema-shaped reference is depth-independent (a bounded dictionary
lookup), and each Property step consumes exactly one recursion level, so
a successful resolution stays successful at every larger depth; but
chains of property references are followed one level per link, and on
the self-referential document specCyc every finite depth bound is
exceeded (the Rust recursion does not terminate there). -/
theorem C1_bounded_resolution :
    (∀ (f : Nat) (d : OpenAPI) (s : Schema), resolveSchema f (.Item s) d = .ok s) ∧
    (∀ (f f' : Nat) (d : OpenAPI) (r s : String),
        SchemaReference.from_str r = .ok (.schema s) →
        resolveSchema f (.Reference r) d = resolveSchema f' (.Reference r) d) ∧
    (∀ (f : Nat) (c : ReferenceOr Schema) (d : OpenAPI) (v : Schema),
        resolveSchema f c d = .ok v → resolveSchema (f + 1) c d = .ok v) ∧
    (∀ f : Nat,
        resolveSchema f (.Reference "#/components/schemas/Cyc/properties/p") specCyc
          = .error .outOfFuel) := by
  refine ⟨fun f d s => by simp only [resolveSchema], ?_, ?_, ?_⟩
  · intro f f' d r s h
    simp only [resolveSchema, h]
  · intro f
    induction f with
    | zero =>
      intro c d v h
      cases c with
      | Item s =>
        simp only [resolveSchema] at h ⊢
        exact h
      | Reference r =>
        simp only [resolveSchema] at h ⊢
        cases hfs : SchemaReference.from_str r with
        | error e => simp only [hfs] at h ⊢; exact h
        | ok ref =>
          simp only [hfs] at h ⊢
          cases ref with
          | schema s => exact h
          | property s p =>
            cases hgs : get_schema d (.property s p) s with
            | error e => simp only [hgs] at h ⊢; exact h
            | ok sch =>
              simp only [hgs] at h ⊢
              cases hpr : sch.properties with
              | none => simp only [hpr] at h ⊢; exact h
              | some props =>
                simp only [hpr] at h ⊢
                cases hlk : List.lookup p props with
                | none => simp only [hlk] at h ⊢; exact h
                | some pr =>
                  simp only [hlk] at h ⊢
                  exact Except.noConfusion h
    | succ f ih =>
      intro c d v h
      cases c with
      | Item s =>
        simp only [resolveSchema] at h ⊢
        exact h
      | Reference r =>
        simp only [resolveSchema] at h ⊢
        cases hfs : SchemaReference.from_str r with
        | error e => simp only [hfs] at h ⊢; exact h
        | ok ref =>
          simp only [hfs] at h ⊢
          cases ref with
          | schema s => exact h
          | property s p =>
            cases hgs : get_schema d (.property s p) s with
            | error e => simp only [hgs] at h ⊢; exact h
            | ok sch =>
              simp only [hgs] at h ⊢
              cases hpr : sch.properties with
              | none => simp only [hpr] at h ⊢; exact h
              | some props =>
                simp only [hpr] at h ⊢
                cases hlk : List.lookup p props with
                | none => simp only [hlk] at h ⊢; exact h
                | some pr =>
                  simp only [hlk] at h ⊢
                  exact ih pr d v h
  · intro f
    induction f with
    | zero => rfl
    | succ f ih => exact ih

/-- C1 witness: an Item resolves at any depth, a Schema-shaped reference
is depth-independent, the successful two-step chain of specAB stays
successful at a larger depth, and the cyclic document exceeds an
explicit bound. -/
theorem C1_witness :
    resolveSchema 5 (.Item stringSchema) emptySpec = .ok stringSchema
    ∧ resolveSchema 0 (.Reference "#/components/schemas/Account") specAccount
        = resolveSchema 7 (.Reference "#/components/schemas/Account") specAccount
    ∧ resolveSchema 3 (.Reference "#/components/schemas/A/properties/p") specAB
        = .ok stringSchema
    ∧ resolveSchema 4 (.Reference "#/components/schemas/Cyc/properties/p") specCyc
        = .error .outOfFuel :=
  ⟨C1_bounded_resolution.1 5 emptySpec stringSchema,
   C1_bounded_resolution.2.1 0 7 specAccount "#/components/schemas/Account" "Account" rfl,
   C1_bounded_resolution.2.2.1 2 (.Reference "#/components/schemas/A/properties/p") specAB
     stringSchema rfl,
   C1_bounded_resolution.2.2.2 4⟩

end Openapiv3
